import Mathlib

/-
Verification development for wasm-run.js (node-wasm-run).

The definitions below are a shallow embedding of the parts of
src/wasm-run.js that the verified properties talk about:

  * the argument-coercion loop of the explicit-invocation path
    (lines 438-445), together with models of the JavaScript library
    functions it calls (parseInt, BigInt, parseFloat);
  * the wasi_unstable compatibility shims fd_seek, fd_filestat_get and
    path_filestat_get (lines 352-386), including the restructure-based
    struct codec they use (lines 323-350 plus EncodeBuffer/encodeStruct/
    decodeStruct, lines 82-142);
  * the signature introspector parseWasmInfo (lines 189-239);
  * the invocation-selection logic (lines 424-458).

JavaScript numbers are modelled by JsNum (NaN / signed infinity / an
exact rational).  parseInt and parseFloat return doubles; every value a
theorem below evaluates them at is exactly representable, so the exact
rational carries the same information.
-/

namespace WasmRun

/-- ValueType: the closed set of type tags produced by decodeType in
parseWasmInfo (wasm-run.js lines 196-210).  Note the source maps the
binaryen tag exnref to the string "externref". -/
inductive ValueType where
  | none
  | i32
  | i64
  | f32
  | f64
  | v128
  | funcref
  | anyref
  | nullref
  | externref
  | unknown
deriving DecidableEq, Repr

/-- A JavaScript number: NaN, a signed infinity (the Bool is true for the
negative one), or a finite value given exactly as a rational. -/
inductive JsNum where
  | nan
  | inf : Bool → JsNum
  | fin : ℚ → JsNum
deriving DecidableEq, Repr

/-- A JavaScript value as it can appear in the argument array of the
invocation path: a number, a BigInt, a string, or undefined. -/
inductive JsValue where
  | num : JsNum → JsValue
  | bigint : Int → JsValue
  | str : String → JsValue
  | undef
deriving DecidableEq, Repr

/-- White space recognised when trimming a numeric string (the common
JavaScript WhiteSpace/LineTerminator characters). -/
def isWs (c : Char) : Bool :=
  c == ' ' || c == '\t' || c == '\n' || c == '\r'

/-- Decimal, hexadecimal (either case), octal or binary digit value; 0 on
any other character (never reached on characters accepted by the digit
predicates below). -/
def digitVal (c : Char) : Nat :=
  if c.isDigit then c.toNat - 48
  else if 97 ≤ c.toNat ∧ c.toNat ≤ 102 then c.toNat - 87
  else if 65 ≤ c.toNat ∧ c.toNat ≤ 70 then c.toNat - 55
  else 0

/-- Hexadecimal digit predicate. -/
def isHexDigit (c : Char) : Bool :=
  c.isDigit || decide (97 ≤ c.toNat ∧ c.toNat ≤ 102)
    || decide (65 ≤ c.toNat ∧ c.toNat ≤ 70)

/-- Octal digit predicate. -/
def isOctDigit (c : Char) : Bool :=
  decide (48 ≤ c.toNat ∧ c.toNat ≤ 55)

/-- Binary digit predicate. -/
def isBinDigit (c : Char) : Bool :=
  c == '0' || c == '1'

/-- Value of a digit string in the given radix (most significant first). -/
def digitsToNat (radix : Nat) (ds : List Char) : Nat :=
  ds.foldl (fun a c => a * radix + digitVal c) 0

/-- Model of JavaScript parseInt(s) with no radix argument: skip leading
white space, read an optional sign, detect an optional 0x/0X prefix
(radix 16, otherwise 10), then take the longest prefix of digits of that
radix.  No digits at all gives NaN; otherwise the signed integer value.
parseInt returns a double, exact for magnitudes below 2^53; all inputs
used in the theorems below are far below that. -/
def jsParseInt (s : String) : JsNum :=
  let cs := s.toList.dropWhile isWs
  let ps : Int × List Char :=
    match cs with
    | '-' :: r => (-1, r)
    | '+' :: r => (1, r)
    | _ => (1, cs)
  let rs : Nat × List Char :=
    match ps.2 with
    | '0' :: 'x' :: r => (16, r)
    | '0' :: 'X' :: r => (16, r)
    | _ => (10, ps.2)
  let ds := rs.2.takeWhile (fun c => if rs.1 = 16 then isHexDigit c else c.isDigit)
  if ds.isEmpty then JsNum.nan
  else JsNum.fin ((ps.1 * (digitsToNat rs.1 ds : Int) : Int) : ℚ)

/-- Model of the JavaScript BigInt(s) constructor on a string: trim white
space on both ends; an empty remainder is 0n; a 0x/0o/0b (or upper-case)
prefixed digit string is unsigned in that radix; otherwise an optional
sign followed by decimal digits, which must make up the whole remainder.
Anything else throws a SyntaxError, modelled as Option.none. -/
def jsBigIntStr (s : String) : Option Int :=
  let cs := ((s.toList.dropWhile isWs).reverse.dropWhile isWs).reverse
  match cs with
  | [] => some 0
  | '0' :: 'x' :: r =>
      if r ≠ [] ∧ r.all isHexDigit then some (digitsToNat 16 r) else none
  | '0' :: 'X' :: r =>
      if r ≠ [] ∧ r.all isHexDigit then some (digitsToNat 16 r) else none
  | '0' :: 'o' :: r =>
      if r ≠ [] ∧ r.all isOctDigit then some (digitsToNat 8 r) else none
  | '0' :: 'O' :: r =>
      if r ≠ [] ∧ r.all isOctDigit then some (digitsToNat 8 r) else none
  | '0' :: 'b' :: r =>
      if r ≠ [] ∧ r.all isBinDigit then some (digitsToNat 2 r) else none
  | '0' :: 'B' :: r =>
      if r ≠ [] ∧ r.all isBinDigit then some (digitsToNat 2 r) else none
  | _ =>
      let ps : Int × List Char :=
        match cs with
        | '-' :: r => (-1, r)
        | '+' :: r => (1, r)
        | _ => (1, cs)
      if ps.2 ≠ [] ∧ ps.2.all Char.isDigit
      then some (ps.1 * (digitsToNat 10 ps.2 : Int))
      else none

/-- Exponent part of a decimal literal for parseFloat: an optional sign
followed by digits.  When no digit follows, the exponent part is not
consumed and contributes a factor of one, modelled as exponent 0. -/
def expPartVal (r : List Char) : Int :=
  let ps : Int × List Char :=
    match r with
    | '-' :: t => (-1, t)
    | '+' :: t => (1, t)
    | _ => (1, r)
  let eds := ps.2.takeWhile Char.isDigit
  if eds.isEmpty then 0 else ps.1 * (digitsToNat 10 eds : Int)

/-- Model of JavaScript parseFloat(s): skip leading white space, read an
optional sign, recognise the literal Infinity, otherwise take the
longest prefix shaped digits [. digits] [e[sign]digits]; if neither
integer nor fraction digits are present the result is NaN.  parseFloat
returns the double nearest to the literal; every literal a theorem below
evaluates it at (such as 3.25) is exactly representable, so the exact
rational computed here equals that double. -/
def jsParseFloat (s : String) : JsNum :=
  let cs := s.toList.dropWhile isWs
  let ps : Bool × List Char :=
    match cs with
    | '-' :: r => (true, r)
    | '+' :: r => (false, r)
    | _ => (false, cs)
  let sgn : ℚ := if ps.1 then -1 else 1
  if ps.2.take 8 = "Infinity".toList then JsNum.inf ps.1
  else
    let intDs := ps.2.takeWhile Char.isDigit
    let cs2 := ps.2.drop intDs.length
    let fr : List Char × List Char :=
      match cs2 with
      | '.' :: r => (r.takeWhile Char.isDigit, r.drop (r.takeWhile Char.isDigit).length)
      | _ => ([], cs2)
    if intDs.isEmpty ∧ fr.1.isEmpty then JsNum.nan
    else
      let mant : ℚ :=
        (digitsToNat 10 intDs : ℚ) + (digitsToNat 10 fr.1 : ℚ) / (10 : ℚ) ^ fr.1.length
      let ex : Int :=
        match fr.2 with
        | 'e' :: r => expPartVal r
        | 'E' :: r => expPartVal r
        | _ => 0
      JsNum.fin (sgn * mant * (10 : ℚ) ^ ex)

/-- JavaScript ToString on an argument that may be undefined (reading past
the end of the argument array): parseInt/parseFloat stringify undefined
to "undefined". -/
def jsToStringOpt : Option String → String
  | Option.none => "undefined"
  | some s => s

/-- An untouched argument-array slot as a JsValue: the raw string, or
undefined past the end of the array. -/
def jsRawValue : Option String → JsValue
  | Option.none => JsValue.undef
  | some s => JsValue.str s

/-- One iteration of the coercion loop of wasm-run.js lines 438-445 at
index i: switch on funcInfo.params[i] (absent, that is i beyond the
parameter list, leaves the slot untouched, as does any type tag outside
i32/i64/f32/f64, since the switch has no default case).  i32 applies
parseInt, i64 applies BigInt (which throws on an invalid literal, and
throws a TypeError on undefined), f32/f64 apply parseFloat. -/
def coerceEntry (params : List ValueType) (args : List String) (i : Nat) :
    Except String JsValue :=
  match params[i]? with
  | some ValueType.i32 =>
      Except.ok (JsValue.num (jsParseInt (jsToStringOpt args[i]?)))
  | some ValueType.i64 =>
      match args[i]? with
      | Option.none => Except.error "TypeError"
      | some s =>
          match jsBigIntStr s with
          | some n => Except.ok (JsValue.bigint n)
          | Option.none => Except.error "SyntaxError"
  | some ValueType.f32 =>
      Except.ok (JsValue.num (jsParseFloat (jsToStringOpt args[i]?)))
  | some ValueType.f64 =>
      Except.ok (JsValue.num (jsParseFloat (jsToStringOpt args[i]?)))
  | some _ => Except.ok (jsRawValue args[i]?)
  | Option.none => Except.ok (jsRawValue args[i]?)

/-- Run coerceEntry over a list of indices, propagating the first thrown
exception (an uncaught JavaScript exception aborts the run). -/
def coerceIndices (params : List ValueType) (args : List String) :
    List Nat → Except String (List JsValue)
  | [] => Except.ok []
  | i :: rest =>
      match coerceEntry params args i with
      | Except.error e => Except.error e
      | Except.ok v =>
          match coerceIndices params args rest with
          | Except.error e => Except.error e
          | Except.ok vs => Except.ok (v :: vs)

/-- The full argument array right before the call func(...args)
(wasm-run.js line 449): the loop at lines 438-445 rewrites slot i for
every i below params.length and leaves the other slots as the raw
strings; a JavaScript assignment args[i] for i beyond the array end
extends the array, so the final array length is the larger of the two
lengths, and the whole array is spread into the call. -/
def coerceArgs (params : List ValueType) (args : List String) :
    Except String (List JsValue) :=
  coerceIndices params args (List.range (max params.length args.length))

/-
Struct codec and the wasi_unstable filestat shims (wasm-run.js 323-386).

restructure decodes uint64 fields with the two-uint32 schema
uint64 = new r.Struct({lo: uint32, hi: uint32}), so a decoded 64-bit
field is a plain object with numeric fields lo and hi.
-/

/-- A decoded uint64 field: the object {lo, hi} produced by the
restructure schema new r.Struct({lo: uint32, hi: uint32}). -/
structure U64 where
  lo : Nat
  hi : Nat
deriving DecidableEq, Repr

/-- The logical fields of a decoded wasi_snapshot_preview1_filestat_t
(wasm-run.js lines 328-338).  The reserved field pad0 is skipped by the
decoder and never surfaced. -/
structure Filestat where
  dev : U64
  ino : U64
  ftype : Nat
  nlink : U64
  size : U64
  atim : U64
  mtim : U64
  ctim : U64
deriving DecidableEq, Repr

/-- Byte i of a byte list (Buffer read past the end never happens here:
every read below is inside a 64-byte buffer). -/
def byteAt (b : List Nat) (i : Nat) : Nat :=
  b.getD i 0

/-- Buffer.readUInt32LE at the given offset. -/
def readU32 (b : List Nat) (off : Nat) : Nat :=
  byteAt b off + 256 * byteAt b (off + 1) + 65536 * byteAt b (off + 2)
    + 16777216 * byteAt b (off + 3)

/-- Decode of the uint64 schema at the given offset: two consecutive
little-endian uint32 reads. -/
def readU64 (b : List Nat) (off : Nat) : U64 :=
  ⟨readU32 b off, readU32 b (off + 4)⟩

/-- decodeStruct(wasi_snapshot_preview1_filestat_t, b) on a 64-byte
buffer b: field offsets dev 0, ino 8, ftype 16 (uint8), 7 reserved
bytes, nlink 24, size 32, atim 40, mtim 48, ctim 56. -/
def decodeStruct_preview1 (b : List Nat) : Filestat :=
  { dev := readU64 b 0
    ino := readU64 b 8
    ftype := byteAt b 16
    nlink := readU64 b 24
    size := readU64 b 32
    atim := readU64 b 40
    mtim := readU64 b 48
    ctim := readU64 b 56 }

/-- Buffer.writeUInt32LE of an in-range number: its four little-endian
bytes. -/
def writeU32 (n : Nat) : List Nat :=
  [n % 256, n / 256 % 256, n / 65536 % 256, n / 16777216 % 256]

/-- Encode of the uint64 schema: lo then hi, each as uint32le. -/
def writeU64 (x : U64) : List Nat :=
  writeU32 x.lo ++ writeU32 x.hi

/-- The four bytes Buffer.writeUInt32LE stores for the nlink field of
wasi_unstable_filestat_t.  The encoder is handed the value decoded from
the stable record, which for nlink is the object {lo, hi} (the uint64
schema), not a number.  Node's writeUInt32LE first coerces the value
with unary plus, and +object is NaN; the range check (value > max ||
value < min) is false for NaN, and each stored byte is a bitwise shift
of NaN, which is 0.  So the encoder silently stores four zero bytes. -/
def writeU32_of_u64_object : List Nat :=
  [0, 0, 0, 0]

/-- encodeStruct(wasi_unstable_filestat_t, s) for a Filestat s decoded
from the stable record (wasm-run.js lines 340-350): dev at 0, ino at 8,
ftype at 16 (uint8), 3 reserved bytes filled with 0, nlink at 20 as
uint32 (see writeU32_of_u64_object), size 24, atim 32, mtim 40, ctim 48;
56 bytes in total. -/
def encodeStruct_unstable (s : Filestat) : List Nat :=
  writeU64 s.dev ++ writeU64 s.ino ++ [s.ftype % 256] ++ [0, 0, 0]
    ++ writeU32_of_u64_object ++ writeU64 s.size ++ writeU64 s.atim
    ++ writeU64 s.mtim ++ writeU64 s.ctim

/-- Linear wasm memory as a byte store.  In a real Uint8Array every entry
is below 256; none of the properties below depends on that bound. -/
abbrev Memory := Nat → Nat

/-- Uint8Array.prototype.slice(start, stop) as used by the shims (both
indices here are non-negative; a stop at or before start yields the
empty array, which Nat subtraction models directly). -/
def uslice (mem : Memory) (start stop : Nat) : List Nat :=
  (List.range (stop - start)).map (fun k => mem (start + k))

/-- Uint8Array.prototype.set(data, off): overwrite data.length bytes
starting at off. -/
def memWrite (mem : Memory) (off : Nat) (data : List Nat) : Memory :=
  fun i => if off ≤ i ∧ i - off < data.length then data.getD (i - off) 0 else mem i

/-- imports.wasi_unstable.fd_filestat_get (wasm-run.js lines 361-373),
with the underlying stable call abstracted by the 64-byte record
stableBytes it writes at buf (the fd argument and the returned status
code do not touch memory).  Note the backup slice is taken verbatim
from the source: mem.slice(buf+56, buf+(64-56)), whose end index buf+8
is below its start index buf+56, so the slice is empty. -/
def fd_filestat_get (stableBytes : List Nat) (mem : Memory) (buf : Nat) : Memory :=
  let backup := uslice mem (buf + 56) (buf + (64 - 56))
  let mem1 := memWrite mem buf stableBytes
  let modified := encodeStruct_unstable (decodeStruct_preview1 (uslice mem1 buf (buf + 64)))
  let mem2 := memWrite mem1 buf modified
  memWrite mem2 (buf + 56) backup

/-- imports.wasi_unstable.path_filestat_get (wasm-run.js lines 374-386):
identical memory behaviour to the by-descriptor wrapper; the extra
arguments (flags, path, path_len) only influence which record the
underlying stable call writes, which is the abstracted stableBytes. -/
def path_filestat_get (stableBytes : List Nat) (mem : Memory) (buf : Nat) : Memory :=
  let backup := uslice mem (buf + 56) (buf + (64 - 56))
  let mem1 := memWrite mem buf stableBytes
  let modified := encodeStruct_unstable (decodeStruct_preview1 (uslice mem1 buf (buf + 64)))
  let mem2 := memWrite mem1 buf modified
  memWrite mem2 (buf + 56) backup

/-- The whence remap of imports.wasi_unstable.fd_seek (wasm-run.js lines
352-360): unstable 0 (cur) to stable 1, 1 (end) to 2, 2 (set) to 0; any
other value throws the string "Invalid whence". -/
def whenceRemap (whence : Int) : Except String Int :=
  if whence = 0 then Except.ok 1
  else if whence = 1 then Except.ok 2
  else if whence = 2 then Except.ok 0
  else Except.error "Invalid whence"

/-- imports.wasi_unstable.fd_seek: remap whence, then forward everything
to the stable wasi fd_seek (abstracted as stableSeek); the throw happens
before the underlying function is reached. -/
def fd_seek (stableSeek : Int → Int → Int → Int → Int)
    (fd offset whence result : Int) : Except String Int :=
  match whenceRemap whence with
  | Except.ok w => Except.ok (stableSeek fd offset w result)
  | Except.error e => Except.error e

/-
Signature introspector parseWasmInfo (wasm-run.js lines 189-239).
-/

/-- One entry of result.funcsByIndex / funcsByName: the object
{index, params, results} built at lines 220-224. -/
structure FuncSig where
  index : Nat
  params : List ValueType
  results : List ValueType
deriving DecidableEq, Repr

/-- The binaryen-level data of one defined function: its internal name
and decoded parameter/result types (Binaryen.getFunctionInfo). -/
structure FuncInfo where
  name : String
  params : List ValueType
  results : List ValueType
deriving DecidableEq, Repr

/-- One export entry (Binaryen.getExportInfo): public name, internal
value, and whether its kind is ExternalFunction. -/
structure ExportInfo where
  name : String
  value : String
  isFunc : Bool
deriving DecidableEq, Repr

/-- The funcsByName JavaScript object: a string-keyed dictionary whose
absent keys read as undefined. -/
abbrev NameMap := String → Option FuncSig

/-- Dictionary assignment m[k] = v. -/
def updateMap (m : NameMap) (k : String) (v : Option FuncSig) : NameMap :=
  fun s => if s = k then v else m s

/-- The funcsByIndex array built by the loop at lines 217-225, starting
at index i. -/
def buildByIndex (i : Nat) : List FuncInfo → List FuncSig
  | [] => []
  | f :: rest => ⟨i, f.params, f.results⟩ :: buildByIndex (i + 1) rest

/-- The funcsByName assignments of that same loop (one dictionary write
per function, keyed by its internal name), starting at index i. -/
def buildFuncsFrom (m : NameMap) (i : Nat) : List FuncInfo → NameMap
  | [] => m
  | f :: rest => buildFuncsFrom (updateMap m f.name (some ⟨i, f.params, f.results⟩)) (i + 1) rest

/-- The export-alias loop at lines 227-234: for every export of function
kind, funcsByName[exp.name] = funcsByName[exp.value] (reading the
dictionary as it is at that iteration). -/
def applyExports (m : NameMap) : List ExportInfo → NameMap
  | [] => m
  | e :: rest => applyExports (if e.isFunc then updateMap m e.name (m e.value) else m) rest

/-- The result object of parseWasmInfo. -/
structure ParseResult where
  funcsByIndex : List FuncSig
  funcsByName : NameMap

/-- parseWasmInfo: first walk every defined function (filling both
funcsByIndex and funcsByName), then walk the exports aliasing
funcsByName entries. -/
def parseWasmInfo (funcs : List FuncInfo) (exports : List ExportInfo) : ParseResult :=
  ⟨buildByIndex 0 funcs, applyExports (buildFuncsFrom (fun _ => Option.none) 0 funcs) exports⟩

/-
Invocation selection (wasm-run.js lines 424-458).
-/

/-- What the main function does after instantiation. -/
inductive RunAction where
  | fatalNotFound : String → RunAction
  | invokeFunc : String → RunAction
  | wasiStart
deriving DecidableEq, Repr

/-- JavaScript truthiness of an optional string (argv.invoke and
wasmInfo.wasiVersion): undefined and the empty string are falsy. -/
def jsTruthy : Option String → Bool
  | Option.none => false
  | some s => !(s == "")

/-- Lines 424-458: if no function was requested (falsy argv.invoke), no
capability namespace was detected and exactly one function is exported,
auto-select that export; then a truthy argv.invoke is looked up in the
export name set (fatal "Function not found" when absent) and invoked,
and a falsy one hands control to the WASI entry-point branch. -/
def selectInvocation (invoke0 : Option String) (wasiVersion : Option String)
    (exportedFuncs : List String) : RunAction :=
  let invoke :=
    if !(jsTruthy invoke0) && !(jsTruthy wasiVersion) && exportedFuncs.length == 1
    then some (exportedFuncs.headD "")
    else invoke0
  if jsTruthy invoke then
    let f := invoke.getD ""
    if exportedFuncs.contains f then RunAction.invokeFunc f else RunAction.fatalNotFound f
  else RunAction.wasiStart

/-
Helper lemmas.
-/

/-- The unstable-layout encoder always produces exactly 56 bytes. -/
theorem encodeStruct_unstable_length (s : Filestat) :
    (encodeStruct_unstable s).length = 56 := by
  simp [encodeStruct_unstable, writeU64, writeU32, writeU32_of_u64_object]

/-- A successful coercion pass yields one value per processed index. -/
theorem coerceIndices_length (params : List ValueType) (args : List String) :
    ∀ (idxs : List Nat) (l : List JsValue),
      coerceIndices params args idxs = Except.ok l → l.length = idxs.length := by
  intro idxs
  induction idxs with
  | nil =>
    intro l h
    cases h
    rfl
  | cons j rest ih =>
    intro l h
    simp only [coerceIndices] at h
    cases he : coerceEntry params args j with
    | error e => simp [he] at h
    | ok v =>
      simp only [he] at h
      cases hr : coerceIndices params args rest with
      | error e => simp [hr] at h
      | ok vs =>
        simp only [hr] at h
        cases h
        simp [ih vs hr]

/-- Entry k of a successful coercion pass is the coercion of the k-th
processed index. -/
theorem coerceIndices_getElem (params : List ValueType) (args : List String) :
    ∀ (idxs : List Nat) (l : List JsValue),
      coerceIndices params args idxs = Except.ok l →
      ∀ (k j : Nat), idxs[k]? = some j →
        ∃ v, coerceEntry params args j = Except.ok v ∧ l[k]? = some v := by
  intro idxs
  induction idxs with
  | nil =>
    intro l h k j hk
    simp at hk
  | cons j0 rest ih =>
    intro l h k j hk
    simp only [coerceIndices] at h
    cases he : coerceEntry params args j0 with
    | error e => simp [he] at h
    | ok v =>
      simp only [he] at h
      cases hr : coerceIndices params args rest with
      | error e => simp [hr] at h
      | ok vs =>
        simp only [hr] at h
        cases h
        cases k with
        | zero =>
          simp at hk
          subst hk
          exact ⟨v, he, by simp⟩
        | succ k =>
          simp only [List.getElem?_cons_succ] at hk ⊢
          exact ih vs hr k j hk

/-- A name that is not an internal function name is untouched by the
function walk. -/
theorem buildFuncsFrom_notmem (k : String) :
    ∀ (funcs : List FuncInfo) (m : NameMap) (i : Nat),
      k ∉ funcs.map FuncInfo.name → buildFuncsFrom m i funcs k = m k := by
  intro funcs
  induction funcs with
  | nil =>
    intro m i _
    rfl
  | cons f rest ih =>
    intro m i h
    simp only [List.map_cons, List.mem_cons, not_or] at h
    rw [buildFuncsFrom, ih _ _ h.2]
    simp [updateMap, h.1]

/-- With distinct internal names, the function walk maps the j-th
function's name to its signature (index offset i plus j). -/
theorem buildFuncsFrom_get :
    ∀ (funcs : List FuncInfo) (m : NameMap) (i j : Nat) (f : FuncInfo),
      (funcs.map FuncInfo.name).Nodup → funcs[j]? = some f →
      buildFuncsFrom m i funcs f.name = some ⟨i + j, f.params, f.results⟩ := by
  intro funcs
  induction funcs with
  | nil =>
    intro m i j f _ hj
    simp at hj
  | cons g rest ih =>
    intro m i j f hnd hj
    simp only [List.map_cons, List.nodup_cons] at hnd
    cases j with
    | zero =>
      simp only [List.getElem?_cons_zero, Option.some_inj] at hj
      subst hj
      rw [buildFuncsFrom, buildFuncsFrom_notmem _ _ _ _ hnd.1]
      simp [updateMap]
    | succ j =>
      simp only [List.getElem?_cons_succ] at hj
      rw [buildFuncsFrom]
      have harith : i + 1 + j = i + (j + 1) := by omega
      have hrec := ih (updateMap m g.name (some ⟨i, g.params, g.results⟩)) (i + 1) j f hnd.2 hj
      rw [harith] at hrec
      exact hrec

/-- A name that is not an export name is untouched by the export walk. -/
theorem applyExports_notmem (k : String) :
    ∀ (exports : List ExportInfo) (m : NameMap),
      k ∉ exports.map ExportInfo.name → applyExports m exports k = m k := by
  intro exports
  induction exports with
  | nil =>
    intro m _
    rfl
  | cons e rest ih =>
    intro m h
    simp only [List.map_cons, List.mem_cons, not_or] at h
    rw [applyExports, ih _ h.2]
    by_cases hf : e.isFunc = true
    · simp [hf, updateMap, h.1]
    · simp [hf]

/-- With distinct export names none of which shadows the looked-up
internal name, a function-kind export ends up bound to the value its
internal name had before the export walk. -/
theorem applyExports_get :
    ∀ (exports : List ExportInfo) (m : NameMap) (e : ExportInfo),
      (exports.map ExportInfo.name).Nodup → e ∈ exports → e.isFunc = true →
      (∀ e2 ∈ exports, e2.name ≠ e.value) →
      applyExports m exports e.name = m e.value := by
  intro exports
  induction exports with
  | nil =>
    intro m e _ he
    simp at he
  | cons g rest ih =>
    intro m e hnd he hf hv
    simp only [List.map_cons, List.nodup_cons] at hnd
    rcases List.mem_cons.mp he with rfl | hmem
    · rw [applyExports, applyExports_notmem _ _ _ hnd.1]
      simp [hf, updateMap]
    · rw [applyExports]
      have hrec := ih (if g.isFunc then updateMap m g.name (m g.value) else m) e hnd.2 hmem hf
        (fun e2 h2 => hv e2 (List.mem_cons_of_mem _ h2))
      rw [hrec]
      have hgv : e.value ≠ g.name := Ne.symm (hv g (List.mem_cons_self _ _))
      by_cases hgf : g.isFunc = true
      · simp [hgf, updateMap, hgv]
      · simp [hgf]

/-- funcsByIndex entry j is the signature of the j-th function. -/
theorem buildByIndex_get :
    ∀ (funcs : List FuncInfo) (i j : Nat) (f : FuncInfo), funcs[j]? = some f →
      (buildByIndex i funcs)[j]? = some ⟨i + j, f.params, f.results⟩ := by
  intro funcs
  induction funcs with
  | nil =>
    intro i j f hj
    simp at hj
  | cons g rest ih =>
    intro i j f hj
    cases j with
    | zero =>
      simp only [List.getElem?_cons_zero, Option.some_inj] at hj
      subst hj
      simp [buildByIndex]
    | succ j =>
      simp only [List.getElem?_cons_succ] at hj
      rw [buildByIndex]
      simp only [List.getElem?_cons_succ]
      have harith : i + 1 + j = i + (j + 1) := by omega
      have hrec := ih (i + 1) j f hj
      rw [harith] at hrec
      exact hrec

/-
Concrete inputs used by the evaluation theorems.
-/

/-- A memory whose bytes [56, 64) hold the sentinel 0xAA = 170 and whose
other bytes are 0. -/
def sentinelMem : Memory := fun i => if 56 ≤ i ∧ i < 64 then 170 else 0

/-- A 64-byte all-zero stable record. -/
def zeroRec64 : List Nat := List.replicate 64 0

/-- A 64-byte stable record whose 64-bit nlink field (offset 24) is 5 and
whose other bytes are 0. -/
def stableRecNlink5 : List Nat := (List.range 64).map (fun i => if i = 24 then 5 else 0)

/-- The functions of a module whose index-0 function is internally named
"g" and whose index-1 function is internally named "h". -/
def aliasFuncs : List FuncInfo := [⟨"g", [], [ValueType.i32]⟩, ⟨"h", [], [ValueType.f64]⟩]

/-- Exports of that module: the export named "g" references function "h",
and the exports "x" and "y" both reference function "g" — so the
function at index 0 is exported under the two names "x" and "y". -/
def aliasExports : List ExportInfo := [⟨"g", "h", true⟩, ⟨"x", "g", true⟩, ⟨"y", "g", true⟩]

/-
Claim theorems.
-/

/-- C1: the claim states that the 8 bytes at [buf+56, buf+64) are
bit-identical before and after the unstable status wrappers, restored
from a snapshot.  The code computes the snapshot as
mem.slice(buf+56, buf+(64-56)), i.e. slice(buf+56, buf+8), an empty
slice, so nothing is restored: with the sentinel 170 at bytes [56, 64)
and buf = 0, byte 56 is 0 after either wrapper (the byte the stable
call wrote), not 170.  The comments in the source ("restore backup")
show the snapshot/restore was the intent, so this is a code bug. -/
theorem C1_trailing_restore_bug :
    sentinelMem 56 = 170 ∧
    fd_filestat_get zeroRec64 sentinelMem 0 56 = 0 ∧
    path_filestat_get zeroRec64 sentinelMem 0 56 = 0 :=
  ⟨rfl, rfl, rfl⟩

/-- C2: the claim states that the 32-bit linkCount of the re-encoded
56-byte unstable record equals the low 32 bits of the stable record's
64-bit linkCount.  On a stable record with linkCount 5 the low 32 bits
are 5, but the bytes the encoder stores in the unstable nlink field
(offset 20) are 0: the decoded nlink is the object {lo, hi}, and
writeUInt32LE coerces it to NaN and stores zero bytes.  The shim exists
precisely to carry the logical fields across layouts, so this is a code
bug. -/
theorem C2_linkcount_bug :
    readU32 stableRecNlink5 24 = 5 ∧
    readU32 stableRecNlink5 28 = 0 ∧
    (decodeStruct_preview1 stableRecNlink5).nlink.lo = 5 ∧
    readU32 (encodeStruct_unstable (decodeStruct_preview1 stableRecNlink5)) 20 = 0 :=
  ⟨rfl, rfl, rfl, rfl⟩

/-- C3: the unstable seek wrapper remaps whence by the fixed permutation
0 to 1, 1 to 2, 2 to 0 — a bijection on {0,1,2}: every remapped value is
again in {0,1,2} and the map is injective there — and any whence outside
{0,1,2} makes fd_seek fail with the "Invalid whence" error without the
underlying stable seek being consulted (the result is the same for every
underlying function). -/
theorem C3_whence_remap :
    (whenceRemap 0 = Except.ok 1 ∧ whenceRemap 1 = Except.ok 2 ∧ whenceRemap 2 = Except.ok 0) ∧
    (∀ w : Int, (w = 0 ∨ w = 1 ∨ w = 2) →
      ∃ v, whenceRemap w = Except.ok v ∧ (v = 0 ∨ v = 1 ∨ v = 2)) ∧
    (∀ w w2 : Int, (w = 0 ∨ w = 1 ∨ w = 2) → (w2 = 0 ∨ w2 = 1 ∨ w2 = 2) →
      whenceRemap w = whenceRemap w2 → w = w2) ∧
    (∀ w : Int, ¬(w = 0 ∨ w = 1 ∨ w = 2) →
      ∀ (f : Int → Int → Int → Int → Int) (fd off res : Int),
        fd_seek f fd off w res = Except.error "Invalid whence") := by
  refine ⟨⟨rfl, rfl, rfl⟩, ?_, ?_, ?_⟩
  · intro w hw
    rcases hw with h | h | h <;> subst h
    · exact ⟨1, rfl, Or.inr (Or.inl rfl)⟩
    · exact ⟨2, rfl, Or.inr (Or.inr rfl)⟩
    · exact ⟨0, rfl, Or.inl rfl⟩
  · intro w w2 h1 h2 heq
    rcases h1 with h | h | h <;> rcases h2 with h2 | h2 | h2 <;> subst h <;> subst h2 <;>
      first
      | rfl
      | (exfalso; simp [whenceRemap] at heq)
  · intro w hw f fd off res
    push_neg at hw
    obtain ⟨h0, h1, h2⟩ := hw
    simp [fd_seek, whenceRemap, h0, h1, h2]

/-- Witness for C3: whence 5 is outside {0,1,2} and makes fd_seek fail. -/
theorem C3_whence_remap_witness :
    ¬((5 : Int) = 0 ∨ (5 : Int) = 1 ∨ (5 : Int) = 2) ∧
    fd_seek (fun _ _ _ _ => 0) 0 0 5 0 = Except.error "Invalid whence" :=
  ⟨by decide, C3_whence_remap.2.2.2 5 (by decide) (fun _ _ _ _ => 0) 0 0 0⟩

/-- C4 counterexample: the claim states coerce([i32], ["abc"]) fails with
ArgumentParseError; in fact the coercion succeeds and produces NaN
(parseInt never throws). -/
theorem C4_counterexample :
    coerceArgs [ValueType.i32] ["abc"] = Except.ok [JsValue.num JsNum.nan] :=
  rfl

/-- C4 (amended): for an i32 parameter, argument coercion never fails;
the raw string is passed through parseInt, and a string that is not a
valid integer literal yields NaN (which is what the invoked function
then receives) — in particular coerce([i32], ["abc"]) succeeds with
NaN instead of raising ArgumentParseError. -/
theorem C4_amended :
    (∀ s : String, coerceArgs [ValueType.i32] [s] = Except.ok [JsValue.num (jsParseInt s)]) ∧
    jsParseInt "abc" = JsNum.nan :=
  ⟨fun _ => rfl, rfl⟩

/-- C5: coercion applied positionally to [i32, i64, f32] and
["-5", "9999999999", "3.25"] yields the integer -5, the exact BigInt
9999999999 (parsed digit by digit with arbitrary precision), and the
float 3.25 = 13/4 (exactly representable). -/
theorem C5_coercion :
    coerceArgs [ValueType.i32, ValueType.i64, ValueType.f32] ["-5", "9999999999", "3.25"]
      = Except.ok [JsValue.num (JsNum.fin (-5)), JsValue.bigint 9999999999,
          JsValue.num (JsNum.fin (13 / 4))] := by
  have h1 : coerceArgs [ValueType.i32, ValueType.i64, ValueType.f32]
      ["-5", "9999999999", "3.25"]
      = Except.ok [JsValue.num (JsNum.fin (-5)), JsValue.bigint 9999999999,
          JsValue.num (jsParseFloat "3.25")] := rfl
  have h2 : jsParseFloat "3.25"
      = JsNum.fin ((1 : ℚ) * (((3 : Nat) : ℚ) + ((25 : Nat) : ℚ) / (10 : ℚ) ^ (2 : Nat))
          * (10 : ℚ) ^ (0 : Int)) := rfl
  have h3 : ((1 : ℚ) * (((3 : Nat) : ℚ) + ((25 : Nat) : ℚ) / (10 : ℚ) ^ (2 : Nat))
      * (10 : ℚ) ^ (0 : Int)) = 13 / 4 := by norm_num
  rw [h1, h2, h3]

/-- C6 counterexample: the claim states coercion produces exactly
len(params) typed arguments and the extra raw arguments are not passed
on; with params [i32] and raw args ["1", "2"] the argument array
actually spread into the call has the 2 entries [1, "2"] — the extra
raw string stays in the array — not 1 entry. -/
theorem C6_counterexample :
    coerceArgs [ValueType.i32] ["1", "2"]
      = Except.ok [JsValue.num (JsNum.fin 1), JsValue.str "2"] ∧
    ([JsValue.num (JsNum.fin 1), JsValue.str "2"] : List JsValue).length
      ≠ ([ValueType.i32] : List ValueType).length :=
  ⟨rfl, by decide⟩

/-- C6 (amended): when len(rawArgs) is at least len(params), coercion
rewrites the first len(params) slots in place and leaves every trailing
slot as its raw string; the array passed to the invoked function has
len(rawArgs) entries, the trailing raw strings included (the external
engine, not this code, ignores the extras). -/
theorem C6_amended (params : List ValueType) (args : List String) (l : List JsValue)
    (hlen : params.length ≤ args.length)
    (h : coerceArgs params args = Except.ok l) :
    l.length = args.length ∧
    ∀ (i : Nat) (s : String), params.length ≤ i → args[i]? = some s →
      l[i]? = some (JsValue.str s) := by
  have hmax : max params.length args.length = args.length := by omega
  unfold coerceArgs at h
  rw [hmax] at h
  constructor
  · have hl := coerceIndices_length params args _ _ h
    simpa using hl
  · intro i s hi hs
    have hlt : i < args.length := by
      by_contra hc
      push_neg at hc
      rw [List.getElem?_eq_none hc] at hs
      cases hs
    have hk : (List.range args.length)[i]? = some i := by
      simp [List.getElem?_range, hlt]
    obtain ⟨v, hv, hlv⟩ := coerceIndices_getElem params args _ _ h i i hk
    have hnone : params[i]? = Option.none := List.getElem?_eq_none hi
    rw [show coerceEntry params args i = Except.ok (JsValue.str s) by
      simp [coerceEntry, hnone, hs, jsRawValue]] at hv
    cases hv
    exact hlv

/-- Witness for C6 (amended) at params [i32], raw args ["1", "2"]: the
coerced array has 2 entries and entry 1 is the untouched raw string. -/
theorem C6_amended_witness :
    ([ValueType.i32] : List ValueType).length ≤ (["1", "2"] : List String).length ∧
    ([JsValue.num (JsNum.fin 1), JsValue.str "2"] : List JsValue).length
      = (["1", "2"] : List String).length ∧
    ([JsValue.num (JsNum.fin 1), JsValue.str "2"] : List JsValue)[1]? = some (JsValue.str "2") :=
  ⟨by decide,
    (C6_amended [ValueType.i32] ["1", "2"]
      [JsValue.num (JsNum.fin 1), JsValue.str "2"] (by decide) rfl).1,
    (C6_amended [ValueType.i32] ["1", "2"]
      [JsValue.num (JsNum.fin 1), JsValue.str "2"] (by decide) rfl).2 1 "2" (by decide) rfl⟩

/-- C7 counterexample: the claim states a parameter of type outside
{i32, i64, f32, f64} makes coercion fail with UnsupportedParameterType;
in fact the switch has no default case, so a funcref parameter leaves
its raw string untouched and the invocation proceeds. -/
theorem C7_counterexample :
    coerceArgs [ValueType.funcref] ["x"] = Except.ok [JsValue.str "x"] :=
  rfl

/-- C7 (amended): for every parameter type outside {i32, i64, f32, f64}
the coercion loop leaves the raw string argument untouched and raises no
error; the function is still invoked, with the string passed through. -/
theorem C7_amended (t : ValueType) (s : String)
    (h1 : t ≠ ValueType.i32) (h2 : t ≠ ValueType.i64)
    (h3 : t ≠ ValueType.f32) (h4 : t ≠ ValueType.f64) :
    coerceArgs [t] [s] = Except.ok [JsValue.str s] := by
  cases t <;>
    first
    | exact absurd rfl h1
    | exact absurd rfl h2
    | exact absurd rfl h3
    | exact absurd rfl h4
    | rfl

/-- Witness for C7 (amended) at type anyref and raw argument "q". -/
theorem C7_amended_witness :
    ValueType.anyref ≠ ValueType.i32 ∧
    coerceArgs [ValueType.anyref] ["q"] = Except.ok [JsValue.str "q"] :=
  ⟨by decide, C7_amended ValueType.anyref "q" (by decide) (by decide) (by decide) (by decide)⟩

/-- C8 counterexample: the claim states that whenever a function is
exported under two different names, both byName entries equal byIndex at
that function's index.  In the module aliasFuncs/aliasExports the
function at index 0 (internally "g") is exported under the two names
"x" and "y", but an earlier export named "g" rebinds the dictionary key
"g" to the signature of index 1 before "x" and "y" are resolved, so
byName "x" is the index-1 signature while byIndex[0] is the index-0
signature — they differ in every field shown. -/
theorem C8_counterexample :
    aliasExports[1]? = some ⟨"x", "g", true⟩ ∧
    aliasExports[2]? = some ⟨"y", "g", true⟩ ∧
    aliasFuncs[0]? = some ⟨"g", [], [ValueType.i32]⟩ ∧
    (parseWasmInfo aliasFuncs aliasExports).funcsByName "x"
      = some ⟨1, [], [ValueType.f64]⟩ ∧
    (parseWasmInfo aliasFuncs aliasExports).funcsByName "y"
      = some ⟨1, [], [ValueType.f64]⟩ ∧
    (parseWasmInfo aliasFuncs aliasExports).funcsByIndex[0]?
      = some ⟨0, [], [ValueType.i32]⟩ ∧
    some (⟨1, [], [ValueType.f64]⟩ : FuncSig) ≠ some (⟨0, [], [ValueType.i32]⟩ : FuncSig) :=
  ⟨rfl, rfl, rfl, rfl, rfl, rfl, by decide⟩

/-- C8 (amended): the aliasing claim holds provided the module's names
are unambiguous: internal function names are pairwise distinct, export
names are pairwise distinct, and no export name collides with an
internal function name (a wasm module with a name section can violate
the last condition, which is what the counterexample exploits).  Then a
function exported under two names e1.name and e2.name yields two byName
keys carrying the same signature data, both equal to byIndex at that
function's index.  Reference-sharing of the JavaScript object is not
observable in a value model; field-for-field equality is what is
proved. -/
theorem C8_amended (funcs : List FuncInfo) (exports : List ExportInfo)
    (e1 e2 : ExportInfo) (i : Nat) (f : FuncInfo)
    (hnodupF : (funcs.map FuncInfo.name).Nodup)
    (hnodupE : (exports.map ExportInfo.name).Nodup)
    (hdisj : ∀ e ∈ exports, ∀ g ∈ funcs, e.name ≠ g.name)
    (he1 : e1 ∈ exports) (he2 : e2 ∈ exports)
    (hf1 : e1.isFunc = true) (hf2 : e2.isFunc = true)
    (hv1 : e1.value = f.name) (hv2 : e2.value = f.name)
    (_hne : e1.name ≠ e2.name)
    (hi : funcs[i]? = some f) :
    (parseWasmInfo funcs exports).funcsByName e1.name = some ⟨i, f.params, f.results⟩ ∧
    (parseWasmInfo funcs exports).funcsByName e2.name = some ⟨i, f.params, f.results⟩ ∧
    (parseWasmInfo funcs exports).funcsByIndex[i]? = some ⟨i, f.params, f.results⟩ := by
  have hfmem : f ∈ funcs := by
    have := List.getElem?_eq_some.mp hi
    obtain ⟨hlt, hget⟩ := this
    exact hget ▸ List.getElem_mem _
  have hbase : buildFuncsFrom (fun _ => Option.none) 0 funcs f.name
      = some ⟨i, f.params, f.results⟩ := by
    have := buildFuncsFrom_get funcs (fun _ => Option.none) 0 i f hnodupF hi
    simpa using this
  have hshadow1 : ∀ e2' ∈ exports, e2'.name ≠ e1.value := by
    intro e2' h2
    rw [hv1]
    exact hdisj e2' h2 f hfmem
  have hshadow2 : ∀ e2' ∈ exports, e2'.name ≠ e2.value := by
    intro e2' h2
    rw [hv2]
    exact hdisj e2' h2 f hfmem
  refine ⟨?_, ?_, ?_⟩
  · show applyExports (buildFuncsFrom (fun _ => Option.none) 0 funcs) exports e1.name = _
    rw [applyExports_get exports _ e1 hnodupE he1 hf1 hshadow1, hv1, hbase]
  · show applyExports (buildFuncsFrom (fun _ => Option.none) 0 funcs) exports e2.name = _
    rw [applyExports_get exports _ e2 hnodupE he2 hf2 hshadow2, hv2, hbase]
  · show (buildByIndex 0 funcs)[i]? = _
    have := buildByIndex_get funcs 0 i f hi
    simpa using this

/-- Witness for C8 (amended): a module with one function internally
named "f0" exported under the two names "a" and "b". -/
theorem C8_amended_witness :
    (∀ e ∈ ([⟨"a", "f0", true⟩, ⟨"b", "f0", true⟩] : List ExportInfo),
      ∀ g ∈ ([⟨"f0", [], [ValueType.i32]⟩] : List FuncInfo), e.name ≠ g.name) ∧
    (parseWasmInfo [⟨"f0", [], [ValueType.i32]⟩] [⟨"a", "f0", true⟩, ⟨"b", "f0", true⟩]).funcsByName "a"
      = some ⟨0, [], [ValueType.i32]⟩ ∧
    (parseWasmInfo [⟨"f0", [], [ValueType.i32]⟩] [⟨"a", "f0", true⟩, ⟨"b", "f0", true⟩]).funcsByName "b"
      = some ⟨0, [], [ValueType.i32]⟩ ∧
    (parseWasmInfo [⟨"f0", [], [ValueType.i32]⟩] [⟨"a", "f0", true⟩, ⟨"b", "f0", true⟩]).funcsByIndex[0]?
      = some ⟨0, [], [ValueType.i32]⟩ :=
  ⟨by decide,
    (C8_amended [⟨"f0", [], [ValueType.i32]⟩] [⟨"a", "f0", true⟩, ⟨"b", "f0", true⟩]
      ⟨"a", "f0", true⟩ ⟨"b", "f0", true⟩ 0 ⟨"f0", [], [ValueType.i32]⟩
      (by decide) (by decide) (by decide) (by decide) (by decide)
      rfl rfl rfl rfl (by decide) rfl).1,
    (C8_amended [⟨"f0", [], [ValueType.i32]⟩] [⟨"a", "f0", true⟩, ⟨"b", "f0", true⟩]
      ⟨"a", "f0", true⟩ ⟨"b", "f0", true⟩ 0 ⟨"f0", [], [ValueType.i32]⟩
      (by decide) (by decide) (by decide) (by decide) (by decide)
      rfl rfl rfl rfl (by decide) rfl).2.1,
    (C8_amended [⟨"f0", [], [ValueType.i32]⟩] [⟨"a", "f0", true⟩, ⟨"b", "f0", true⟩]
      ⟨"a", "f0", true⟩ ⟨"b", "f0", true⟩ 0 ⟨"f0", [], [ValueType.i32]⟩
      (by decide) (by decide) (by decide) (by decide) (by decide)
      rfl rfl rfl rfl (by decide) rfl).2.2⟩

/-- C9: the claim states that with no explicit request, no capability
namespace, and exactly one exported function, that sole export is
selected and invoked.  A wasm module may export a function under the
empty name: then the code assigns argv.invoke = "", which is falsy, so
the following if (argv.invoke) sends control into the WASI entry-point
branch (which has no WASI instance to start) instead of invoking the
export.  The feature list in the source ("Run single exported function
by default") shows the claim is the intent, so this is a code bug. -/
theorem C9_empty_export_bug :
    selectInvocation Option.none Option.none [""] = RunAction.wasiStart ∧
    RunAction.wasiStart ≠ RunAction.invokeFunc "" :=
  ⟨rfl, by decide⟩

/-- C10: assuming the underlying stable status call writes exactly the
64-byte record at [buf, buf+64) (it is abstracted by those bytes), every
memory byte outside [buf, buf+64) is unchanged by either unstable
status wrapper: the wrapper's own writes (the 56-byte re-encoded record
and the empty snapshot restore) stay inside [buf, buf+64). -/
theorem C10_frame (mem : Memory) (buf i : Nat) (stableBytes : List Nat)
    (hlen : stableBytes.length = 64) (hout : i < buf ∨ buf + 64 ≤ i) :
    fd_filestat_get stableBytes mem buf i = mem i ∧
    path_filestat_get stableBytes mem buf i = mem i := by
  have hsl : (buf + (64 - 56)) - (buf + 56) = 0 := by omega
  have hb : uslice mem (buf + 56) (buf + (64 - 56)) = [] := by
    simp [uslice, hsl]
  constructor <;>
  · simp only [fd_filestat_get, path_filestat_get, hb]
    simp only [memWrite, List.length_nil, encodeStruct_unstable_length, hlen]
    rw [if_neg, if_neg, if_neg] <;> omega

/-- Witness for C10 at buf = 0 and the out-of-range byte i = 64. -/
theorem C10_frame_witness :
    (List.replicate 64 0 : List Nat).length = 64 ∧ ((64 : Nat) < 0 ∨ 0 + 64 ≤ 64) ∧
    fd_filestat_get (List.replicate 64 0) (fun _ => 9) 0 64 = 9 ∧
    path_filestat_get (List.replicate 64 0) (fun _ => 9) 0 64 = 9 :=
  ⟨rfl, Or.inr (by decide),
    (C10_frame (fun _ => 9) 0 64 (List.replicate 64 0) rfl (Or.inr (by decide))).1,
    (C10_frame (fun _ => 9) 0 64 (List.replicate 64 0) rfl (Or.inr (by decide))).2⟩

end WasmRun
